import Mathlib

/-!
Shallow embedding of the market-inefficiency scanner and payoff engine
(`src/lib/math/scanner.ts`, `src/lib/math/payoff.ts`) of the Poly
repository.  JavaScript numbers are modelled by `ℚ`; the wall-clock /
random metadata fields (`id`, `detectedAt`, `addedAt`, `createdAt`, …)
and free-text `explanation` / `reason` strings built with `toFixed`
formatting are not part of the model, since no verified property
mentions them.
-/

namespace Poly

/-- Model of `MarketOutcome` from `src/types/market.ts` (fields read by the math
core: `price`; `name` kept for completeness). -/
structure MarketOutcome where
  name : String
  price : ℚ
deriving DecidableEq

/-- Model of `Market` from `src/types/market.ts`, restricted to the fields the
scanner / payoff engine ever reads: `id`, `question`, `category`,
`outcomes`. -/
structure Market where
  id : String
  question : String
  category : String
  outcomes : List MarketOutcome
deriving DecidableEq

/-- The JS expression `x?.price || 0.5`: a missing outcome, or a present
outcome whose price is the falsy number `0`, yields the default `0.5`. -/
def jsOrHalf (o : Option ℚ) : ℚ :=
  match o with
  | none => 1/2
  | some x => if x = 0 then 1/2 else x

/-- Model of `market.outcomes[0]?.price || 0.5` — the effective YES price. -/
def yesPrice (m : Market) : ℚ :=
  jsOrHalf ((m.outcomes.get? 0).map MarketOutcome.price)

/-- Model of `market.outcomes[1]?.price || 0.5` — the effective NO price. -/
def noPrice (m : Market) : ℚ :=
  jsOrHalf ((m.outcomes.get? 1).map MarketOutcome.price)

/-- JS `Math.round`: round half towards `+∞`, i.e. `⌊x + 1/2⌋`. -/
def jsRound (x : ℚ) : ℤ :=
  ⌊x + 1/2⌋

inductive SeverityLevel
  | low
  | medium
  | high
deriving DecidableEq

/-- Model of `getSeverityLevel` from `scanner.ts`. -/
def getSeverityLevel (score : ℤ) : SeverityLevel :=
  if score ≥ 70 then .high
  else if score ≥ 40 then .medium
  else .low

inductive Side
  | YES
  | NO
deriving DecidableEq

inductive RuleType
  | sum_to_one
  | threshold_consistency
  | arbitrage_bundle
deriving DecidableEq

/-- Model of `SuggestedTrade` (the `reason` free-text field is omitted). -/
structure SuggestedTrade where
  marketId : String
  marketQuestion : String
  side : Side
  suggestedStake : ℚ
deriving DecidableEq

/-- Model of `ScannerFlag` (random `id`, wall-clock `detectedAt` and the
`explanation` free text are omitted from the model). -/
structure ScannerFlag where
  ruleType : RuleType
  severity : SeverityLevel
  severityScore : ℤ
  title : String
  affectedMarkets : List Market
  suggestedTrades : List SuggestedTrade
  potentialProfit : ℚ
  confidence : ℚ
deriving DecidableEq

/-- The sum `probabilities.reduce((a, b) => a + b, 0)` over the mapped
effective YES prices in `checkSumToOne`; over `ℚ` the fold order is
immaterial, so we use `List.sum`. -/
def sumToOneSum (markets : List Market) : ℚ :=
  (markets.map yesPrice).sum

/-- Model of `checkSumToOne` from `scanner.ts` (default `threshold = 0.05`). -/
def checkSumToOne (markets : List Market) (threshold : ℚ) :
    Option ScannerFlag :=
  if markets.length < 2 then none
  else
    let sum := sumToOneSum markets
    let deviation := |sum - 1|
    if deviation > threshold then
      let severityScore : ℤ := min 100 (jsRound (deviation * 500))
      let isOverpriced := sum > 1
      let suggestedTrades : List SuggestedTrade := markets.map fun m =>
        let avgPrice : ℚ := 1 / (markets.length : ℚ)
        let currentPrice := yesPrice m
        let isOver := currentPrice > avgPrice * (11/10)
        { marketId := m.id
          marketQuestion := m.question
          side := if isOver then Side.NO else Side.YES
          suggestedStake := |currentPrice - avgPrice| }
      some
        { ruleType := .sum_to_one
          severity := getSeverityLevel severityScore
          severityScore := severityScore
          title :=
            if isOverpriced then "Mutually Exclusive Outcomes Overpriced"
            else "Mutually Exclusive Outcomes Underpriced"
          affectedMarkets := markets
          suggestedTrades := suggestedTrades
          potentialProfit := deviation * 100
          confidence := min 95 (70 + (severityScore : ℚ) / 5) }
    else none

/-- A `{ marketId, value }` threshold entry as consumed by
`checkThresholdConsistency`. -/
structure ThresholdEntry where
  marketId : String
  value : ℚ
deriving DecidableEq

/-- One recorded violation in `checkThresholdConsistency`. -/
structure Violation where
  higher : ThresholdEntry
  lower : ThresholdEntry
  deviation : ℚ
deriving DecidableEq

/-- The body of the adjacent-pair loop of `checkThresholdConsistency`:
a violation is produced for the sorted-adjacent pair `(lower, higher)`
exactly when both markets are found and the higher-threshold market's
effective YES price exceeds the lower one's by more than `margin`
(pairs with a missing market are skipped by `continue`). -/
def violationOf (markets : List Market) (margin : ℚ)
    (pair : ThresholdEntry × ThresholdEntry) : Option Violation :=
  match markets.find? (fun m => m.id == pair.1.marketId),
      markets.find? (fun m => m.id == pair.2.marketId) with
  | some lowerMarket, some higherMarket =>
    let lowerProb := yesPrice lowerMarket
    let higherProb := yesPrice higherMarket
    if higherProb > lowerProb + margin then
      some
        { higher := { marketId := higherMarket.id, value := pair.2.value }
          lower := { marketId := lowerMarket.id, value := pair.1.value }
          deviation := higherProb - lowerProb }
    else none
  | _, _ => none

/-- Model of `[...thresholds].sort((a, b) => a.value - b.value)`: JS `sort` is
stable, and any stable sort on the key `value` produces the same list,
so we model it with Mathlib's (stable) insertion sort. -/
def sortByValue (thresholds : List ThresholdEntry) : List ThresholdEntry :=
  List.insertionSort (fun a b => a.value ≤ b.value) thresholds

/-- The violation list accumulated over adjacent pairs of the sorted
threshold list. -/
def thresholdViolations (markets : List Market) (margin : ℚ)
    (sorted : List ThresholdEntry) : List Violation :=
  (sorted.zip sorted.tail).filterMap (violationOf markets margin)

/-- First-occurrence deduplication, modelling `Array.from(new Set(xs))`
(JS `Set` keeps insertion order). -/
def dedupFirstAux [DecidableEq α] (seen : List α) : List α → List α
  | [] => []
  | x :: xs =>
    if x ∈ seen then dedupFirstAux seen xs
    else x :: dedupFirstAux (x :: seen) xs

def dedupFirst [DecidableEq α] (l : List α) : List α :=
  dedupFirstAux [] l

/-- Model of `checkThresholdConsistency` from `scanner.ts`
(default `margin = 0.02`). -/
def checkThresholdConsistency (markets : List Market)
    (thresholds : List ThresholdEntry) (margin : ℚ) :
    Option ScannerFlag :=
  if thresholds.length < 2 then none
  else
    let sorted := sortByValue thresholds
    match thresholdViolations markets margin sorted with
    | [] => none
    | v :: vs =>
      let violations := v :: vs
      let maxDeviation := (vs.map Violation.deviation).foldl max v.deviation
      let severityScore : ℤ := min 100 (jsRound (maxDeviation * 300))
      let affectedMarkets := dedupFirst <| violations.flatMap fun w =>
        ((markets.find? (fun m => m.id == w.lower.marketId)).toList) ++
          ((markets.find? (fun m => m.id == w.higher.marketId)).toList)
      let suggestedTrades : List SuggestedTrade := violations.flatMap fun w =>
        ((markets.find? (fun m => m.id == w.higher.marketId)).toList.map
          fun hm =>
            { marketId := hm.id, marketQuestion := hm.question,
              side := Side.NO, suggestedStake := 1 }) ++
        ((markets.find? (fun m => m.id == w.lower.marketId)).toList.map
          fun lm =>
            { marketId := lm.id, marketQuestion := lm.question,
              side := Side.YES, suggestedStake := 1 })
      some
        { ruleType := .threshold_consistency
          severity := getSeverityLevel severityScore
          severityScore := severityScore
          title := "Threshold Inconsistency Detected"
          affectedMarkets := affectedMarkets
          suggestedTrades := suggestedTrades
          potentialProfit := maxDeviation * 50
          confidence := 85 }

/-- Model of `checkArbitrageBundles` from `scanner.ts` (default
`minProfit = 0.01`): iterate the markets in input order and return on
the first one qualifying for either the risk-free or the overpriced
flag. -/
def checkArbitrageBundles (markets : List Market) (minProfit : ℚ) :
    Option ScannerFlag :=
  match markets with
  | [] => none
  | market :: rest =>
    let yesP := yesPrice market
    let noP := noPrice market
    let totalCost := yesP + noP
    let profitMargin := (1 - totalCost) / totalCost
    if profitMargin > minProfit then
      let severityScore : ℤ := min 100 (jsRound (profitMargin * 500))
      some
        { ruleType := .arbitrage_bundle
          severity := getSeverityLevel severityScore
          severityScore := severityScore
          title := "Risk-Free Arbitrage Opportunity"
          affectedMarkets := [market]
          suggestedTrades :=
            [ { marketId := market.id, marketQuestion := market.question,
                side := .YES, suggestedStake := 1 },
              { marketId := market.id, marketQuestion := market.question,
                side := .NO, suggestedStake := 1 } ]
          potentialProfit := profitMargin * 100
          confidence := 95 }
    else if totalCost > 1 + minProfit then
      let profitMargin2 := (totalCost - 1) / 1
      let severityScore : ℤ := min 100 (jsRound (profitMargin2 * 500))
      some
        { ruleType := .arbitrage_bundle
          severity := getSeverityLevel severityScore
          severityScore := severityScore
          title := "Overpriced Outcomes Detected"
          affectedMarkets := [market]
          suggestedTrades :=
            [ { marketId := market.id, marketQuestion := market.question,
                side := if totalCost > 1 ∧ yesP > noP then .NO else .YES,
                suggestedStake := 1 } ]
          potentialProfit := profitMargin2 * 50
          confidence := 75 }
    else checkArbitrageBundles rest minProfit

inductive ClusterType
  | mutual_exclusive
  | threshold
  | correlated
  | custom
deriving DecidableEq

/-- Whether `question.match(/\$?\d+[,.]?\d*[kKmMbB]?/g)` is non-null.
Every component of that regex except `\d+` is optional, so a match
exists exactly when the question contains an ASCII digit. -/
def hasNumberToken (q : String) : Bool :=
  q.data.any fun c => c.isDigit

/-- JS `String.prototype.split(' ')` (split on the single space
character, keeping empty tokens; the empty string splits to `[""]`). -/
def splitOnSpaceAux : List Char → List Char → List String
  | [], acc => [String.mk acc.reverse]
  | c :: cs, acc =>
    if c = ' ' then String.mk acc.reverse :: splitOnSpaceAux cs []
    else splitOnSpaceAux cs (c :: acc)

def splitOnSpace (s : String) : List String :=
  splitOnSpaceAux s.data []

/-- Model of `m.question.split(' ').slice(0, 3).join(' ')` from
`detectClusterType`. -/
def firstThreeWords (q : String) : String :=
  String.intercalate " " ((splitOnSpace q).take 3)

/-- Model of `detectClusterType` from `scanner.ts`. -/
def detectClusterType (markets : List Market) : ClusterType :=
  if markets.length < 2 then .custom
  else
    let hasNumbers := markets.all fun m => hasNumberToken m.question
    let firstWords := markets.map fun m => firstThreeWords m.question
    let commonStart := firstWords.all fun w => w == firstWords.headD ""
    if hasNumbers && commonStart then .threshold
    else
      let categories := markets.map Market.category
      let allSameCategory := categories.all fun c => c == categories.headD ""
      if allSameCategory && markets.length ≤ 5 then .mutual_exclusive
      else .correlated

/-- Model of `Position` from the strategy types, restricted to the fields the
payoff engine reads (`id` and the `addedAt` timestamp are metadata the
engine never touches). -/
structure Position where
  market : Market
  side : Side
  stake : ℚ
  entryPrice : ℚ
deriving DecidableEq

/-- Model of `Strategy`, restricted to the fields `analyzeStrategy` reads. -/
structure Strategy where
  positions : List Position
  discountRate : ℚ
deriving DecidableEq

structure PayoffPoint where
  probability : ℚ
  payoff : ℚ
  percentReturn : ℚ
deriving DecidableEq

structure PayoffSurfacePoint where
  probability : ℚ
  daysToResolution : ℚ
  payoff : ℚ
  percentReturn : ℚ
deriving DecidableEq

/-- Model of `PayoffSurface`.  The JS code folds `minPayoff` / `maxPayoff` from
`±Infinity`; the generated point list is always non-empty, so the folds
below (seeded with the first payoff) compute the same numbers. -/
structure PayoffSurface where
  points : List PayoffSurfacePoint
  minPayoff : ℚ
  maxPayoff : ℚ
  expectedValue : ℚ
  timeWeightedEV : ℚ
deriving DecidableEq

/-- Model of `OutcomeScenario`.  The JS `Record<string, 'YES' | 'NO'>` is built
by assigning each distinct market id exactly once, in market order; we
model it as the association list of those assignments. -/
structure OutcomeScenario where
  id : String
  outcomes : List (String × Side)
  probability : ℚ
  payoff : ℚ
deriving DecidableEq

structure StrategyAnalysis where
  totalStake : ℚ
  expectedPayoff : ℚ
  expectedReturn : ℚ
  maxProfit : ℚ
  maxLoss : ℚ
  breakEvenProbability : ℚ
  scenarios : List OutcomeScenario
  payoffCurve : List PayoffPoint
  payoffSurface : PayoffSurface
deriving DecidableEq

/-- Model of `calculatePositionPayoff` from `payoff.ts`. -/
def calculatePositionPayoff (position : Position)
    (finalProbability : ℚ) : ℚ :=
  match position.side with
  | .YES =>
    let yesPayoff := position.stake * (1 / position.entryPrice - 1)
    let noPayoff := -position.stake
    yesPayoff * finalProbability + noPayoff * (1 - finalProbability)
  | .NO =>
    let noPrice := 1 - position.entryPrice
    let noPayoff := position.stake * (1 / noPrice - 1)
    let yesPayoff := -position.stake
    noPayoff * (1 - finalProbability) + yesPayoff * finalProbability

/-- Model of `calculatePositionResolutionPayoff` from `payoff.ts`. -/
def calculatePositionResolutionPayoff (position : Position)
    (outcome : Side) : ℚ :=
  match position.side with
  | .YES =>
    match outcome with
    | .YES => position.stake * (1 / position.entryPrice - 1)
    | .NO => -position.stake
  | .NO =>
    let noPrice := 1 - position.entryPrice
    match outcome with
    | .NO => position.stake * (1 / noPrice - 1)
    | .YES => -position.stake

/-- Model of `applyTimeDiscount` from `payoff.ts`: `PV = FV / (1 + r * t)` with
`t = days / 365`. -/
def applyTimeDiscount (payoff daysToResolution annualRate : ℚ) : ℚ :=
  let years := daysToResolution / 365
  let discountFactor := 1 + annualRate * years
  payoff / discountFactor

/-- Model of `calculateOpportunityCost` from `payoff.ts`. -/
def calculateOpportunityCost (stake daysToResolution annualRate : ℚ) : ℚ :=
  stake * annualRate * (daysToResolution / 365)

/-- The aggregate payoff summed across positions at one probability. -/
def aggregatePayoff (positions : List Position) (probability : ℚ) : ℚ :=
  (positions.map fun p => calculatePositionPayoff p probability).sum

def totalStakeOf (positions : List Position) : ℚ :=
  (positions.map Position.stake).sum

/-- Model of `generatePayoffCurve` from `payoff.ts` (default `steps = 50`). -/
def generatePayoffCurve (positions : List Position) (steps : ℕ) :
    List PayoffPoint :=
  let totalStake := totalStakeOf positions
  (List.range (steps + 1)).map fun i =>
    let probability : ℚ := (i : ℚ) / (steps : ℚ)
    let totalPayoff := aggregatePayoff positions probability
    { probability := probability
      payoff := totalPayoff
      percentReturn :=
        if totalStake > 0 then totalPayoff / totalStake * 100 else 0 }

/-- One cell of the payoff surface grid. -/
def surfacePoint (positions : List Position)
    (discountRate : ℚ) (probabilitySteps timeSteps : ℕ) (maxDays : ℚ)
    (pStep tStep : ℕ) : PayoffSurfacePoint :=
  let totalStake := totalStakeOf positions
  let probability : ℚ := (pStep : ℚ) / (probabilitySteps : ℚ)
  let daysToResolution := ((tStep : ℚ) / (timeSteps : ℚ)) * maxDays
  let undiscountedPayoff := aggregatePayoff positions probability
  let payoff := applyTimeDiscount undiscountedPayoff daysToResolution
    discountRate
  { probability := probability
    daysToResolution := daysToResolution
    payoff := payoff
    percentReturn :=
      if totalStake > 0 then payoff / totalStake * 100 else 0 }

/-- Model of `generatePayoffSurface` from `payoff.ts` (defaults `rate = 0.10`,
`probabilitySteps = 20`, `timeSteps = 10`, `maxDays = 180`). -/
def generatePayoffSurface (positions : List Position)
    (discountRate : ℚ) (probabilitySteps timeSteps : ℕ) (maxDays : ℚ) :
    PayoffSurface :=
  let points := (List.range (probabilitySteps + 1)).flatMap fun pStep =>
    (List.range (timeSteps + 1)).map fun tStep =>
      surfacePoint positions discountRate probabilitySteps timeSteps
        maxDays pStep tStep
  let payoffs := points.map PayoffSurfacePoint.payoff
  let evPoints := points.filter fun p =>
    decide (p.daysToResolution = 0)
  { points := points
    minPayoff := payoffs.foldl min (payoffs.headD 0)
    maxPayoff := payoffs.foldl max (payoffs.headD 0)
    expectedValue :=
      (evPoints.map PayoffSurfacePoint.payoff).sum / (evPoints.length : ℚ)
    timeWeightedEV := payoffs.sum / (points.length : ℚ) }

/-- Model of `Array.from(new Set(positions.map(p => p.market.id)))`. -/
def distinctMarketIds (positions : List Position) : List String :=
  dedupFirst (positions.map fun p => p.market.id)

/-- The `outcomes` record of scenario `i`:
`outcomes[markets[j]] = (i & (1 << j)) ? 'YES' : 'NO'`. -/
def scenarioOutcomes (marketIds : List String) (i : ℕ) :
    List (String × Side) :=
  marketIds.enum.map fun jm =>
    (jm.2, if i.testBit jm.1 then Side.YES else Side.NO)

/-- Model of `generateOutcomeScenarios` from `payoff.ts`.  Note that both the
payoff and the probability loops run over `positions` (not over the
distinct markets): the probability multiplies one factor per
*position*. -/
def generateOutcomeScenarios (positions : List Position) :
    List OutcomeScenario :=
  let marketIds := distinctMarketIds positions
  let numScenarios := 2 ^ marketIds.length
  (List.range numScenarios).map fun i =>
    let outcomes := scenarioOutcomes marketIds i
    let payoff := (positions.map fun pos =>
      calculatePositionResolutionPayoff pos
        ((outcomes.lookup pos.market.id).getD .NO)).sum
    let probability := (positions.map fun pos =>
      let marketProb := yesPrice pos.market
      match (outcomes.lookup pos.market.id).getD .NO with
      | .YES => marketProb
      | .NO => 1 - marketProb).prod
    { id := "scenario-" ++ toString i
      outcomes := outcomes
      probability := probability
      payoff := payoff }

/-- The break-even scan of `analyzeStrategy`: walk the curve, stop at
the first adjacent pair whose payoff signs differ (or touch zero) and
linearly interpolate; default `0.5` when no such pair exists. -/
def breakEvenFromCurve : List PayoffPoint → ℚ
  | [] => 1/2
  | [_] => 1/2
  | p :: q :: rest =>
    if (p.payoff ≤ 0 ∧ q.payoff ≥ 0) ∨ (p.payoff ≥ 0 ∧ q.payoff ≤ 0) then
      let t := |p.payoff| / (|p.payoff| + |q.payoff|)
      p.probability + t * (q.probability - p.probability)
    else breakEvenFromCurve (q :: rest)

/-- Model of `analyzeStrategy` from `payoff.ts` (curve `steps = 50`, surface
defaults `20 × 10` over `180` days). -/
def analyzeStrategy (strategy : Strategy) : StrategyAnalysis :=
  match strategy.positions with
  | [] =>
    { totalStake := 0
      expectedPayoff := 0
      expectedReturn := 0
      maxProfit := 0
      maxLoss := 0
      breakEvenProbability := 1/2
      scenarios := []
      payoffCurve := []
      payoffSurface :=
        { points := [], minPayoff := 0, maxPayoff := 0,
          expectedValue := 0, timeWeightedEV := 0 } }
  | _ :: _ =>
    let positions := strategy.positions
    let totalStake := totalStakeOf positions
    let scenarios := generateOutcomeScenarios positions
    let payoffCurve := generatePayoffCurve positions 50
    let payoffSurface := generatePayoffSurface positions
      strategy.discountRate 20 10 180
    let expectedPayoff := (scenarios.map fun s =>
      s.payoff * s.probability).sum
    let expectedReturn :=
      if totalStake > 0 then expectedPayoff / totalStake * 100 else 0
    let payoffs := scenarios.map OutcomeScenario.payoff
    { totalStake := totalStake
      expectedPayoff := expectedPayoff
      expectedReturn := expectedReturn
      maxProfit := payoffs.foldl max (payoffs.headD 0)
      maxLoss := payoffs.foldl min (payoffs.headD 0)
      breakEvenProbability := breakEvenFromCurve payoffCurve
      scenarios := scenarios
      payoffCurve := payoffCurve
      payoffSurface := payoffSurface }

/-!  Claim-side definitions (stated from the specification's words, for
comparison against the embedded code) and concrete instances used by
the verification theorems below. -/

/-- Convenience constructor for a two-outcome market. -/
def mkMarket (i q c : String) (ys ns : ℚ) : Market :=
  { id := i, question := q, category := c,
    outcomes := [⟨"Yes", ys⟩, ⟨"No", ns⟩] }

/-- Containment of one character list in another (used to state that a
flag title contains a given word). -/
def strContains (needle hay : String) : Prop :=
  ∃ a b, hay.data = a ++ needle.data ++ b

/-- Stated from the claim for C1: the joint probability of scenario `i`
as the product, over each *distinct* market referenced by the
positions (each distinct market contributing exactly one factor), of
that market's current YES price if assigned YES, else one minus it. -/
def claimJointProbability (positions : List Position) (i : ℕ) : ℚ :=
  ((distinctMarketIds positions).enum.map fun jm =>
    let price := ((positions.find? fun p => p.market.id == jm.2).map
      fun p => yesPrice p.market).getD (1/2)
    if i.testBit jm.1 then price else 1 - price).prod

/-- Whether a market qualifies for either arbitrage-bundle flag
(risk-free or overpriced), with the code's conditions. -/
def qualifiesArbitrage (minProfit : ℚ) (m : Market) : Bool :=
  let totalCost := yesPrice m + noPrice m
  decide ((1 - totalCost) / totalCost > minProfit ∨
    totalCost > 1 + minProfit)

/-- Helper for `wordsOf`: split a character list at whitespace,
dropping empty tokens. -/
def wordsAux : List Char → List Char → List String
  | [], acc => if acc.isEmpty then [] else [String.mk acc.reverse]
  | c :: cs, acc =>
    if c.isWhitespace then
      if acc.isEmpty then wordsAux cs []
      else String.mk acc.reverse :: wordsAux cs []
    else wordsAux cs (c :: acc)

/-- Stated from the claim for C8: the whitespace-separated words of a
question (splitting on every whitespace character and dropping the
empty tokens, as the ordinary reading of "words" demands). -/
def wordsOf (q : String) : List String :=
  wordsAux q.data []

/-- The average of the undiscounted aggregate payoff over the
`probabilitySteps + 1` probability grid points — the quantity the
zero-day row of the surface averages. -/
def probGridAvg (positions : List Position) (probabilitySteps : ℕ) : ℚ :=
  (((List.range (probabilitySteps + 1)).map fun (p : ℕ) =>
    aggregatePayoff positions ((p : ℚ) / (probabilitySteps : ℚ))).sum) /
    ((probabilitySteps : ℚ) + 1)

/-- C1 failing input: a market priced `0.30` on YES, referenced by two
positions of the same strategy. -/
def c1Market : Market := mkMarket "m1" "BTC above 100k" "crypto" (3/10) (7/10)

def c1Position : Position :=
  { market := c1Market, side := .YES, stake := 10, entryPrice := 3/10 }

/-- C2 counterexample market: `totalCost = 0.50 + 0.49 = 0.99`
exactly, so `totalCost < 1 - minProfit` fails at `minProfit = 0.01`,
yet `(1 - totalCost)/totalCost = 1/99 > 0.01`. -/
def c2Market : Market := mkMarket "m2" "ETH above 5k" "crypto" (1/2) (49/100)

/-- C4 / C6 / C9 / C10 concrete markets and positions. -/
def c4MarketsOver : List Market :=
  [mkMarket "a" "qa" "c" (4/10) (6/10), mkMarket "b" "qb" "c" (4/10) (6/10),
    mkMarket "c" "qc" "c" (4/10) (6/10)]

def c4MarketsExact : List Market :=
  [mkMarket "a" "qa" "c" (3/10) (7/10), mkMarket "b" "qb" "c" (3/10) (7/10),
    mkMarket "c" "qc" "c" (4/10) (6/10)]

def c4MarketSingle : Market := mkMarket "a" "qa" "c" (4/10) (6/10)

/-- C8 counterexample markets: the questions agree on their first three
whitespace-separated words ("Alpha", "beta", "5") and both contain a
digit, but the first question has a double space, so the code's
`split(' ').slice(0, 3).join(' ')` comparison fails. -/
def c8MarketA : Market :=
  { id := "a", question := "Alpha  beta 5 x", category := "c", outcomes := [] }

def c8MarketB : Market :=
  { id := "b", question := "Alpha beta 5 y", category := "c", outcomes := [] }

/-- Markets whose questions share the identical three-word prefix
"BTC price above" and each contain a number, for the C8 witness. -/
def c8MarketT1 : Market :=
  { id := "t1", question := "BTC price above 50k", category := "crypto",
    outcomes := [] }

def c8MarketT2 : Market :=
  { id := "t2", question := "BTC price above 60k", category := "crypto",
    outcomes := [] }

/-- C9 concrete markets: a present YES price of exactly `0`. -/
def c9MarketZero : Market := mkMarket "z" "qz" "c" 0 1

def c9MarketHigh : Market := mkMarket "h" "qh" "c" (6/10) (4/10)

/-- A market whose YES price is the falsy `0` and whose NO price is
`0.55`: the effective bundle cost is `0.5 + 0.55 = 1.05`. -/
def c9MarketArb : Market := mkMarket "z" "qz" "c" 0 (11/20)

def c9MarketHalfSum : Market := mkMarket "s" "qs" "c" (11/20) (9/20)

def c9Position : Position :=
  { market := c9MarketZero, side := .YES, stake := 10, entryPrice := 1/2 }

/-- A two-position strategy whose aggregate payoff curve is the
constant `25 > 0` (a pure arbitrage), used to witness C10 and C7. -/
def c10PositionYes : Position :=
  { market := mkMarket "m1" "q" "c" (4/10) (6/10), side := .YES,
    stake := 50, entryPrice := 4/10 }

def c10PositionNo : Position :=
  { market := mkMarket "m1" "q" "c" (4/10) (6/10), side := .NO,
    stake := 50, entryPrice := 6/10 }

def c10Strategy : Strategy :=
  { positions := [c10PositionYes, c10PositionNo], discountRate := 1/10 }

/-- C6 witness position: YES at entry `0.40`, stake `50`; its average
payoff over any uniform probability grid is strictly positive. -/
def c6Position : Position :=
  { market := mkMarket "m1" "q" "c" (4/10) (6/10), side := .YES,
    stake := 50, entryPrice := 4/10 }


/-- The sort key relation of `checkThresholdConsistency` is total. -/
instance : IsTotal ThresholdEntry (fun a b => a.value ≤ b.value) :=
  ⟨fun a b => le_total a.value b.value⟩

/-- The sort key relation of `checkThresholdConsistency` is transitive. -/
instance : IsTrans ThresholdEntry (fun a b => a.value ≤ b.value) :=
  ⟨fun _ _ _ h1 h2 => le_trans h1 h2⟩

/-- The point grid of `generatePayoffSurface`. -/
def surfacePoints (positions : List Position) (r : ℚ) (S T : ℕ) (D : ℚ) :
    List PayoffSurfacePoint :=
  (List.range (S + 1)).flatMap fun pStep =>
    (List.range (T + 1)).map fun tStep =>
      surfacePoint positions r S T D pStep tStep

/-!  Verification theorems. -/

/-- C1: the claim (one probability factor per *distinct* market, even
when several positions reference the same market) fails on the code:
`generateOutcomeScenarios` multiplies one factor per *position*.  With
two identical YES positions on one market priced `0.30`, the code
yields scenario probabilities `[0.49, 0.09]` (the shared market's
factor squared), the claim's per-distinct-market product yields
`[0.70, 0.30]`, and the code's probabilities no longer sum to `1`. -/
theorem generateOutcomeScenarios_duplicate_market_probability :
    (generateOutcomeScenarios [c1Position, c1Position]).map
        OutcomeScenario.probability = [49/100, 9/100]
    ∧ claimJointProbability [c1Position, c1Position] 0 = 7/10
    ∧ claimJointProbability [c1Position, c1Position] 1 = 3/10
    ∧ ((generateOutcomeScenarios [c1Position, c1Position]).map
        OutcomeScenario.probability).sum ≠ 1 := by
  refine ⟨?_, ?_, ?_, ?_⟩ <;>
    norm_num [generateOutcomeScenarios, claimJointProbability,
      distinctMarketIds, dedupFirst, dedupFirstAux, scenarioOutcomes,
      c1Position, c1Market, mkMarket, yesPrice, jsOrHalf,
      List.range_succ, List.lookup, List.find?]

/-- C2 counterexample: at `minProfit = 0.01` and a market with
`yesPrice = 0.50`, `noPrice = 0.49` (so `totalCost = 0.99` exactly),
the code emits the "risk-free arbitrage" flag even though
`totalCost < 1 - minProfit` is false — the code's condition is
`(1 - totalCost)/totalCost > minProfit`, not
`totalCost < 1 - minProfit`. -/
theorem checkArbitrageBundles_riskFree_condition_counterexample :
    (checkArbitrageBundles [c2Market] (1/100)).map ScannerFlag.title
      = some "Risk-Free Arbitrage Opportunity"
    ∧ ¬ (yesPrice c2Market + noPrice c2Market < 1 - 1/100) := by
  constructor
  · rw [checkArbitrageBundles]
    rw [if_pos (by norm_num [c2Market, mkMarket, yesPrice, noPrice, jsOrHalf])]
    rfl
  · norm_num [c2Market, mkMarket, yesPrice, noPrice, jsOrHalf]

/-- C8 counterexample: the two questions `"Alpha  beta 5 x"` (double
space) and `"Alpha beta 5 y"` each contain a number token and agree on
their first three whitespace-separated words (`Alpha`, `beta`, `5`),
so the claim classifies the pair as `threshold`; but the code compares
`split(' ').slice(0, 3).join(' ')`, for which the double space differs,
and returns `mutual_exclusive`. -/
theorem detectClusterType_whitespace_counterexample :
    hasNumberToken c8MarketA.question = true
    ∧ hasNumberToken c8MarketB.question = true
    ∧ (wordsOf c8MarketA.question).take 3 = (wordsOf c8MarketB.question).take 3
    ∧ (wordsOf c8MarketA.question).take 3 = ["Alpha", "beta", "5"]
    ∧ detectClusterType [c8MarketA, c8MarketB] = ClusterType.mutual_exclusive
    ∧ detectClusterType [c8MarketA, c8MarketB] ≠ ClusterType.threshold := by
  decide

/-- C2 amended: the risk-free flag is emitted for a market exactly when
`(1 - totalCost) / totalCost > minProfit` (for valid prices this is
`totalCost < 1 / (1 + minProfit)`, not `totalCost < 1 - minProfit`),
and the flag then reports `profitMargin = (1 - totalCost) / totalCost`
(as `potentialProfit = 100 × profitMargin`).  The price-nonnegativity
hypothesis keeps the exact-rational model faithful to the JS division
(it rules out `totalCost = 0`). -/
theorem checkArbitrageBundles_riskFree_margin_spec (m : Market)
    (markets : List Market) (minProfit : ℚ)
    (_hm : ∀ o ∈ m.outcomes, 0 ≤ o.price) :
    ((1 - (yesPrice m + noPrice m)) / (yesPrice m + noPrice m) > minProfit ↔
      (checkArbitrageBundles [m] minProfit).map ScannerFlag.title
        = some "Risk-Free Arbitrage Opportunity")
    ∧ ((1 - (yesPrice m + noPrice m)) / (yesPrice m + noPrice m) > minProfit →
        (checkArbitrageBundles [m] minProfit).map
            (fun f => (f.potentialProfit, f.affectedMarkets))
          = some ((1 - (yesPrice m + noPrice m)) /
              (yesPrice m + noPrice m) * 100, [m]))
    ∧ (∀ f, checkArbitrageBundles markets minProfit = some f →
        f.title = "Risk-Free Arbitrage Opportunity" →
        ∃ mk ∈ markets, f.affectedMarkets = [mk]
          ∧ (1 - (yesPrice mk + noPrice mk)) / (yesPrice mk + noPrice mk)
              > minProfit
          ∧ f.potentialProfit
              = (1 - (yesPrice mk + noPrice mk)) /
                  (yesPrice mk + noPrice mk) * 100) := by
  refine ⟨⟨fun h => ?_, fun h => ?_⟩, fun h => ?_, ?_⟩
  · rw [checkArbitrageBundles, if_pos h]; rfl
  · by_contra hc
    rw [checkArbitrageBundles, if_neg hc] at h
    by_cases h2 : yesPrice m + noPrice m > 1 + minProfit
    · rw [if_pos h2] at h; simp at h
    · rw [if_neg h2] at h; simp [checkArbitrageBundles] at h
  · rw [checkArbitrageBundles, if_pos h]; rfl
  · induction markets with
    | nil => intro f hf; simp [checkArbitrageBundles] at hf
    | cons m' rest ih =>
      intro f hf ht
      rw [checkArbitrageBundles] at hf
      by_cases h1 : (1 - (yesPrice m' + noPrice m')) /
          (yesPrice m' + noPrice m') > minProfit
      · rw [if_pos h1] at hf
        simp only [Option.some.injEq] at hf
        subst hf
        exact ⟨m', List.mem_cons_self _ _, rfl, h1, rfl⟩
      · rw [if_neg h1] at hf
        by_cases h2 : yesPrice m' + noPrice m' > 1 + minProfit
        · rw [if_pos h2] at hf
          simp only [Option.some.injEq] at hf
          subst hf
          simp at ht
        · rw [if_neg h2] at hf
          obtain ⟨mk, hmem, hrest⟩ := ih f hf ht
          exact ⟨mk, List.mem_cons_of_mem _ hmem, hrest⟩

/-- Witness for the amended C2 at the concrete market with
`totalCost = 0.99` and `minProfit = 0.01`
(`profitMargin = 1/99 > 1/100`). -/
theorem checkArbitrageBundles_riskFree_margin_spec_witness :
    (checkArbitrageBundles [c2Market] (1/100)).map
        (fun f => (f.potentialProfit, f.affectedMarkets))
      = some ((1 - (yesPrice c2Market + noPrice c2Market)) /
          (yesPrice c2Market + noPrice c2Market) * 100, [c2Market]) :=
  (checkArbitrageBundles_riskFree_margin_spec c2Market [c2Market] (1/100)
      (by norm_num [c2Market, mkMarket])).2.1
    (by norm_num [c2Market, mkMarket, yesPrice, noPrice, jsOrHalf])

/-- C3: `checkArbitrageBundles` returns, as the single flag's
`affectedMarkets`, exactly the first market (in input-iteration order)
that qualifies for either bundle flag, and `null` when no market
qualifies. -/
theorem checkArbitrageBundles_first_qualifying (markets : List Market)
    (minProfit : ℚ) :
    (checkArbitrageBundles markets minProfit).map ScannerFlag.affectedMarkets
      = (markets.find? (qualifiesArbitrage minProfit)).map fun m => [m] := by
  induction markets with
  | nil => rfl
  | cons m rest ih =>
    rw [checkArbitrageBundles]
    by_cases h1 : (1 - (yesPrice m + noPrice m)) / (yesPrice m + noPrice m)
        > minProfit
    · rw [if_pos h1, List.find?_cons_of_pos _
        (by simp only [qualifiesArbitrage, decide_eq_true_eq]; exact Or.inl h1)]
      rfl
    · rw [if_neg h1]
      by_cases h2 : yesPrice m + noPrice m > 1 + minProfit
      · rw [if_pos h2, List.find?_cons_of_pos _
          (by simp only [qualifiesArbitrage, decide_eq_true_eq]; exact Or.inr h2)]
        rfl
      · rw [if_neg h2, List.find?_cons_of_neg _
          (by simp only [qualifiesArbitrage, decide_eq_true_eq]; tauto)]
        exact ih

/-- C7: `analyzeStrategy` is deterministic — on equal `Strategy`
inputs every field of the two `StrategyAnalysis` results is equal (the
result type carries no wall-clock metadata). -/
theorem analyzeStrategy_deterministic (s t : Strategy) (h : s = t) :
    (analyzeStrategy s).totalStake = (analyzeStrategy t).totalStake
    ∧ (analyzeStrategy s).expectedPayoff = (analyzeStrategy t).expectedPayoff
    ∧ (analyzeStrategy s).expectedReturn = (analyzeStrategy t).expectedReturn
    ∧ (analyzeStrategy s).maxProfit = (analyzeStrategy t).maxProfit
    ∧ (analyzeStrategy s).maxLoss = (analyzeStrategy t).maxLoss
    ∧ (analyzeStrategy s).breakEvenProbability
        = (analyzeStrategy t).breakEvenProbability
    ∧ (analyzeStrategy s).scenarios = (analyzeStrategy t).scenarios
    ∧ (analyzeStrategy s).payoffCurve = (analyzeStrategy t).payoffCurve
    ∧ (analyzeStrategy s).payoffSurface = (analyzeStrategy t).payoffSurface := by
  subst h
  exact ⟨rfl, rfl, rfl, rfl, rfl, rfl, rfl, rfl, rfl⟩

/-- Witness for C7 at a concrete strategy. -/
theorem analyzeStrategy_deterministic_witness :
    (analyzeStrategy c10Strategy).totalStake
        = (analyzeStrategy c10Strategy).totalStake
    ∧ (analyzeStrategy c10Strategy).expectedPayoff
        = (analyzeStrategy c10Strategy).expectedPayoff
    ∧ (analyzeStrategy c10Strategy).expectedReturn
        = (analyzeStrategy c10Strategy).expectedReturn
    ∧ (analyzeStrategy c10Strategy).maxProfit
        = (analyzeStrategy c10Strategy).maxProfit
    ∧ (analyzeStrategy c10Strategy).maxLoss
        = (analyzeStrategy c10Strategy).maxLoss
    ∧ (analyzeStrategy c10Strategy).breakEvenProbability
        = (analyzeStrategy c10Strategy).breakEvenProbability
    ∧ (analyzeStrategy c10Strategy).scenarios
        = (analyzeStrategy c10Strategy).scenarios
    ∧ (analyzeStrategy c10Strategy).payoffCurve
        = (analyzeStrategy c10Strategy).payoffCurve
    ∧ (analyzeStrategy c10Strategy).payoffSurface
        = (analyzeStrategy c10Strategy).payoffSurface :=
  analyzeStrategy_deterministic c10Strategy c10Strategy rfl

/-- C9: a present outcome price of exactly `0` is treated as `0.5` (the
falsy-coalescing default) by all four functions: the effective YES
price is `0.5`; a price-`0` market contributes `0.5` to the sum-to-one
total (so `[0, 0.55]` sums to `1.05` and stays under the `0.05`
threshold); a YES-assigned scenario over a price-`0` market gets factor
`0.5`; the arbitrage bundle `[0, 0.55]` costs `1.05 > 1.01` and flags
"overpriced", not "risk-free"; and threshold consistency compares the
price-`0` market as `0.5` (deviation `0.6 - 0.5 = 0.1`, score `30`). -/
theorem zero_price_treated_as_half (m : Market) (ms : List Market)
    (p : Position)
    (hm : (m.outcomes.get? 0).map MarketOutcome.price = some 0)
    (hp : (p.market.outcomes.get? 0).map MarketOutcome.price = some 0) :
    yesPrice m = 1/2
    ∧ sumToOneSum (m :: ms) = 1/2 + sumToOneSum ms
    ∧ (generateOutcomeScenarios [p]).map OutcomeScenario.probability
        = [1/2, 1/2]
    ∧ checkSumToOne [c9MarketZero, c9MarketHalfSum] (1/20) = none
    ∧ (checkArbitrageBundles [c9MarketArb] (1/100)).map ScannerFlag.title
        = some "Overpriced Outcomes Detected"
    ∧ (checkThresholdConsistency [c9MarketZero, c9MarketHigh]
          [⟨"z", 1⟩, ⟨"h", 2⟩] (1/50)).map ScannerFlag.severityScore
        = some 30 := by
  have hyes : yesPrice m = 1/2 := by
    unfold yesPrice
    rw [hm]
    norm_num [jsOrHalf]
  have hpyes : yesPrice p.market = 1/2 := by
    unfold yesPrice
    rw [hp]
    norm_num [jsOrHalf]
  refine ⟨hyes, ?_, ?_, ?_, ?_, ?_⟩
  · simp [sumToOneSum, hyes]
  · norm_num [generateOutcomeScenarios, distinctMarketIds, dedupFirst,
      dedupFirstAux, scenarioOutcomes, List.range_succ, List.lookup,
      hpyes]
  · have habs : |sumToOneSum [c9MarketZero, c9MarketHalfSum] - 1|
        = 1/20 := by
      rw [show sumToOneSum [c9MarketZero, c9MarketHalfSum] = 21/20 from by
        norm_num [sumToOneSum, c9MarketZero, c9MarketHalfSum, mkMarket,
          yesPrice, jsOrHalf]]
      rw [abs_of_nonneg] <;> norm_num
    simp only [checkSumToOne, habs]
    norm_num
  · rw [checkArbitrageBundles]
    rw [if_neg (by norm_num [c9MarketArb, mkMarket, yesPrice, noPrice,
      jsOrHalf])]
    rw [if_pos (by norm_num [c9MarketArb, mkMarket, yesPrice, noPrice,
      jsOrHalf])]
    rfl
  · have hviol : thresholdViolations [c9MarketZero, c9MarketHigh] (1/50)
        (sortByValue [⟨"z", 1⟩, ⟨"h", 2⟩])
        = [⟨⟨"h", 2⟩, ⟨"z", 1⟩, 1/10⟩] := by
      rw [show sortByValue [⟨"z", 1⟩, ⟨"h", 2⟩] = [⟨"z", 1⟩, ⟨"h", 2⟩] from by
        norm_num [sortByValue, List.insertionSort, List.orderedInsert]]
      simp only [thresholdViolations, List.zip, List.zipWith,
        List.filterMap_cons, List.filterMap_nil, violationOf]
      rw [show List.find? (fun mm => mm.id == "z")
          [c9MarketZero, c9MarketHigh] = some c9MarketZero from rfl]
      rw [show List.find? (fun mm => mm.id == "h")
          [c9MarketZero, c9MarketHigh] = some c9MarketHigh from rfl]
      norm_num [c9MarketZero, c9MarketHigh, mkMarket, yesPrice, jsOrHalf]
    simp only [checkThresholdConsistency, hviol]
    norm_num [jsRound, min_def]

/-- Witness for C9 at the concrete price-`0` market and position. -/
theorem zero_price_treated_as_half_witness :
    yesPrice c9MarketZero = 1/2
    ∧ (generateOutcomeScenarios [c9Position]).map
        OutcomeScenario.probability = [1/2, 1/2] :=
  ⟨(zero_price_treated_as_half c9MarketZero [] c9Position rfl rfl).1,
    (zero_price_treated_as_half c9MarketZero [] c9Position rfl rfl).2.2.1⟩

/-- C4: `checkSumToOne` returns `null` for fewer than 2 markets and
whenever `|sum - 1| ≤ threshold`; otherwise it returns exactly one flag
with `severityScore = min(100, round(deviation * 500))` and a title
containing "Overpriced" when the sum exceeds `1` and "Underpriced" when
it is below `1`; in particular YES prices `[0.4, 0.4, 0.4]` give score
`100` with an "Overpriced" title, `[0.3, 0.3, 0.4]` gives `null`, and a
single market gives `null`. -/
theorem checkSumToOne_spec (markets : List Market) (threshold : ℚ) :
    (markets.length < 2 → checkSumToOne markets threshold = none)
    ∧ (2 ≤ markets.length →
        (|sumToOneSum markets - 1| ≤ threshold →
          checkSumToOne markets threshold = none)
        ∧ (|sumToOneSum markets - 1| > threshold →
          (checkSumToOne markets threshold).map
              (fun f => (f.severityScore, f.title))
            = some (min 100 (jsRound (|sumToOneSum markets - 1| * 500)),
                if sumToOneSum markets > 1
                then "Mutually Exclusive Outcomes Overpriced"
                else "Mutually Exclusive Outcomes Underpriced"))
        ∧ (|sumToOneSum markets - 1| > threshold → sumToOneSum markets > 1 →
            ∃ f, checkSumToOne markets threshold = some f
              ∧ strContains "Overpriced" f.title)
        ∧ (|sumToOneSum markets - 1| > threshold → sumToOneSum markets < 1 →
            ∃ f, checkSumToOne markets threshold = some f
              ∧ strContains "Underpriced" f.title))
    ∧ ((checkSumToOne c4MarketsOver (1/20)).map
          (fun f => (f.ruleType, f.severityScore)) = some (.sum_to_one, 100))
    ∧ (∃ f, checkSumToOne c4MarketsOver (1/20) = some f
        ∧ strContains "Overpriced" f.title)
    ∧ checkSumToOne c4MarketsExact (1/20) = none
    ∧ checkSumToOne [c4MarketSingle] (1/20) = none := by
  have hover : sumToOneSum c4MarketsOver = 6/5 := by
    norm_num [sumToOneSum, c4MarketsOver, mkMarket, yesPrice, jsOrHalf]
  have hoverabs : |sumToOneSum c4MarketsOver - 1| = 1/5 := by
    rw [hover, abs_of_nonneg] <;> norm_num
  have hexact : sumToOneSum c4MarketsExact = 1 := by
    norm_num [sumToOneSum, c4MarketsExact, mkMarket, yesPrice, jsOrHalf]
  have hgen : ∀ ms : List Market, ∀ th : ℚ, 2 ≤ ms.length →
      |sumToOneSum ms - 1| > th →
      (checkSumToOne ms th).map (fun f => (f.severityScore, f.title))
        = some (min 100 (jsRound (|sumToOneSum ms - 1| * 500)),
            if sumToOneSum ms > 1
            then "Mutually Exclusive Outcomes Overpriced"
            else "Mutually Exclusive Outcomes Underpriced") := by
    intro ms th h2 hdev
    simp only [checkSumToOne]
    rw [if_neg (not_lt.mpr h2), if_pos hdev]
    rfl
  have hnone : ∀ ms : List Market, ∀ th : ℚ, 2 ≤ ms.length →
      |sumToOneSum ms - 1| ≤ th → checkSumToOne ms th = none := by
    intro ms th h2 hdev
    simp only [checkSumToOne]
    rw [if_neg (not_lt.mpr h2), if_neg (not_lt.mpr hdev)]
  have hsome : ∀ ms : List Market, ∀ th : ℚ, 2 ≤ ms.length →
      |sumToOneSum ms - 1| > th →
      ∃ f, checkSumToOne ms th = some f
        ∧ f.ruleType = RuleType.sum_to_one
        ∧ f.severityScore = min 100 (jsRound (|sumToOneSum ms - 1| * 500))
        ∧ f.title = (if sumToOneSum ms > 1
            then "Mutually Exclusive Outcomes Overpriced"
            else "Mutually Exclusive Outcomes Underpriced") := by
    intro ms th h2 hdev
    simp only [checkSumToOne]
    rw [if_neg (not_lt.mpr h2), if_pos hdev]
    exact ⟨_, rfl, rfl, rfl, rfl⟩
  refine ⟨?_, fun h2 => ⟨hnone _ _ h2, hgen _ _ h2, ?_, ?_⟩, ?_, ?_, ?_, ?_⟩
  · intro h
    simp only [checkSumToOne]
    rw [if_pos h]
  · intro hdev h1
    obtain ⟨f, hf, -, -, ht⟩ := hsome _ _ h2 hdev
    rw [if_pos h1] at ht
    exact ⟨f, hf, ht ▸ ⟨"Mutually Exclusive Outcomes ".data, [], by decide⟩⟩
  · intro hdev h1
    obtain ⟨f, hf, -, -, ht⟩ := hsome _ _ h2 hdev
    rw [if_neg (by exact not_lt.mpr (le_of_lt h1))] at ht
    exact ⟨f, hf, ht ▸ ⟨"Mutually Exclusive Outcomes ".data, [], by decide⟩⟩
  · obtain ⟨f, hf, hrule, hscore, -⟩ := hsome c4MarketsOver (1/20)
      (by norm_num [c4MarketsOver]) (by rw [hoverabs]; norm_num)
    rw [hoverabs] at hscore
    rw [hf]
    simp only [Option.map_some']
    rw [hrule, hscore]
    norm_num [jsRound, min_def]
  · obtain ⟨f, hf, -, -, ht⟩ := hsome c4MarketsOver (1/20)
      (by norm_num [c4MarketsOver]) (by rw [hoverabs]; norm_num)
    rw [if_pos (by rw [hover]; norm_num)] at ht
    exact ⟨f, hf, ht ▸ ⟨"Mutually Exclusive Outcomes ".data, [], by decide⟩⟩
  · exact hnone c4MarketsExact (1/20) (by norm_num [c4MarketsExact])
      (by rw [hexact]; norm_num)
  · simp only [checkSumToOne]
    rw [if_pos (by norm_num [c4MarketSingle])]


/-- Witness for C4: the single-market and the `[0.4, 0.4, 0.4]`
instantiations of the spec theorem. -/
theorem checkSumToOne_spec_witness :
    checkSumToOne [c4MarketSingle] (1/20) = none
    ∧ (checkSumToOne c4MarketsOver (1/20)).map
        (fun f => (f.severityScore, f.title))
      = some (min 100 (jsRound (|sumToOneSum c4MarketsOver - 1| * 500)),
          if sumToOneSum c4MarketsOver > 1
          then "Mutually Exclusive Outcomes Overpriced"
          else "Mutually Exclusive Outcomes Underpriced") :=
  ⟨(checkSumToOne_spec [c4MarketSingle] (1/20)).1 (by norm_num [c4MarketSingle]),
    ((checkSumToOne_spec c4MarketsOver (1/20)).2.1
        (by norm_num [c4MarketsOver])).2.1
      (by
        rw [show |sumToOneSum c4MarketsOver - 1| = 1/5 from by
          rw [show sumToOneSum c4MarketsOver = 6/5 from by
            norm_num [sumToOneSum, c4MarketsOver, mkMarket, yesPrice,
              jsOrHalf]]
          rw [abs_of_nonneg] <;> norm_num]
        norm_num)⟩


/-- A left fold of `max` dominates its seed and every list element. -/
theorem foldl_max_bounds (l : List ℚ) (a : ℚ) :
    a ≤ l.foldl max a ∧ ∀ x ∈ l, x ≤ l.foldl max a := by
  induction l generalizing a with
  | nil => exact ⟨le_refl a, by simp⟩
  | cons y ys ih =>
    obtain ⟨h1, h2⟩ := ih (max a y)
    refine ⟨le_trans (le_max_left a y) h1, ?_⟩
    intro x hx
    rcases List.mem_cons.mp hx with rfl | hx
    · exact le_trans (le_max_right a x) h1
    · exact h2 x hx

/-- A left fold of `max` is the seed or one of the list elements. -/
theorem foldl_max_mem (l : List ℚ) (a : ℚ) :
    l.foldl max a = a ∨ l.foldl max a ∈ l := by
  induction l generalizing a with
  | nil => exact Or.inl rfl
  | cons y ys ih =>
    rcases ih (max a y) with h | h
    · rcases max_choice a y with hm | hm
      · exact Or.inl (by rw [List.foldl_cons, h, hm])
      · exact Or.inr (by rw [List.foldl_cons, h, hm]; exact List.mem_cons_self _ _)
    · exact Or.inr (List.mem_cons_of_mem _ h)

/-- C5: `checkThresholdConsistency` sorts the thresholds ascending by
value (stably, as a permutation); a violation is recorded for an
adjacent (lower, higher) pair exactly when both markets are found and
the higher-threshold market's YES price exceeds the lower one's by
more than the margin, the recorded deviation being that price excess;
fewer than 2 thresholds or no violation yields `null`; and any
violations are aggregated into a single flag whose
`severityScore = min(100, round(maxDeviation * 300))`, `maxDeviation`
being the largest single-pair deviation. -/
theorem checkThresholdConsistency_spec (markets : List Market) (thresholds : List ThresholdEntry)
    (margin : ℚ) :
    (List.Sorted (fun a b : ThresholdEntry => a.value ≤ b.value)
        (sortByValue thresholds)
      ∧ (sortByValue thresholds).Perm thresholds)
    ∧ (∀ pair : ThresholdEntry × ThresholdEntry,
        (violationOf markets margin pair).isSome ↔
          ∃ lm hm', markets.find? (fun m => m.id == pair.1.marketId) = some lm
            ∧ markets.find? (fun m => m.id == pair.2.marketId) = some hm'
            ∧ yesPrice hm' > yesPrice lm + margin)
    ∧ (∀ pair v, violationOf markets margin pair = some v →
        ∃ lm hm', markets.find? (fun m => m.id == pair.1.marketId) = some lm
          ∧ markets.find? (fun m => m.id == pair.2.marketId) = some hm'
          ∧ v.deviation = yesPrice hm' - yesPrice lm)
    ∧ (thresholds.length < 2 →
        checkThresholdConsistency markets thresholds margin = none)
    ∧ (2 ≤ thresholds.length →
        (thresholdViolations markets margin (sortByValue thresholds) = [] →
          checkThresholdConsistency markets thresholds margin = none)
        ∧ (∀ v vs,
            thresholdViolations markets margin (sortByValue thresholds)
              = v :: vs →
            ∃ d, d ∈ (v :: vs).map Violation.deviation
              ∧ (∀ d' ∈ (v :: vs).map Violation.deviation, d' ≤ d)
              ∧ (checkThresholdConsistency markets thresholds margin).map
                  ScannerFlag.severityScore
                = some (min 100 (jsRound (d * 300))))) := by
  refine ⟨⟨List.sorted_insertionSort _ _, List.perm_insertionSort _ _⟩,
    ?_, ?_, ?_, ?_⟩
  · intro pair
    cases hf1 : markets.find? (fun m => m.id == pair.1.marketId) with
    | none => simp [violationOf, hf1]
    | some lm =>
      cases hf2 : markets.find? (fun m => m.id == pair.2.marketId) with
      | none => simp [violationOf, hf1, hf2]
      | some hm' =>
        by_cases hc : yesPrice hm' > yesPrice lm + margin
        · simp [violationOf, hf1, hf2, hc]
        · simp [violationOf, hf1, hf2, hc]
  · intro pair v hv
    cases hf1 : markets.find? (fun m => m.id == pair.1.marketId) with
    | none => simp [violationOf, hf1] at hv
    | some lm =>
      cases hf2 : markets.find? (fun m => m.id == pair.2.marketId) with
      | none => simp [violationOf, hf1, hf2] at hv
      | some hm' =>
        by_cases hc : yesPrice hm' > yesPrice lm + margin
        · simp only [violationOf, hf1, hf2, if_pos hc,
            Option.some.injEq] at hv
          exact ⟨lm, hm', rfl, rfl, by rw [← hv]⟩
        · simp [violationOf, hf1, hf2, hc] at hv
  · intro h
    simp only [checkThresholdConsistency]
    rw [if_pos h]
  · intro h2
    constructor
    · intro hv
      simp only [checkThresholdConsistency]
      rw [if_neg (not_lt.mpr h2), hv]
    · intro v vs hv
      refine ⟨(vs.map Violation.deviation).foldl max v.deviation, ?_, ?_, ?_⟩
      · rcases foldl_max_mem (vs.map Violation.deviation) v.deviation with
          h | h
        · rw [h]; exact List.mem_cons_self _ _
        · exact List.mem_cons_of_mem _ (by simpa using h)
      · intro d' hd'
        rcases List.mem_cons.mp hd' with rfl | hd'
        · exact (foldl_max_bounds _ _).1
        · exact (foldl_max_bounds _ _).2 _ hd'
      · simp only [checkThresholdConsistency]
        rw [if_neg (not_lt.mpr h2), hv]
        rfl


/-- Witness for C5 at a concrete two-threshold cluster with one
violating pair of deviation `0.1`. -/
theorem checkThresholdConsistency_spec_witness :
    (checkThresholdConsistency [c9MarketZero, c9MarketHigh]
        [⟨"z", 1⟩, ⟨"h", 2⟩] (1/50)).map ScannerFlag.severityScore
      = some 30 := by
  have hviol : thresholdViolations [c9MarketZero, c9MarketHigh] (1/50)
      (sortByValue [⟨"z", 1⟩, ⟨"h", 2⟩])
      = [⟨⟨"h", 2⟩, ⟨"z", 1⟩, 1/10⟩] := by
    rw [show sortByValue [⟨"z", 1⟩, ⟨"h", 2⟩] = [⟨"z", 1⟩, ⟨"h", 2⟩] from by
      norm_num [sortByValue, List.insertionSort, List.orderedInsert]]
    simp only [thresholdViolations, List.zip, List.zipWith,
      List.filterMap_cons, List.filterMap_nil, violationOf]
    rw [show List.find? (fun mm => mm.id == "z")
        [c9MarketZero, c9MarketHigh] = some c9MarketZero from rfl]
    rw [show List.find? (fun mm => mm.id == "h")
        [c9MarketZero, c9MarketHigh] = some c9MarketHigh from rfl]
    norm_num [c9MarketZero, c9MarketHigh, mkMarket, yesPrice, jsOrHalf]
  obtain ⟨d, hd, -, heq⟩ :=
    ((checkThresholdConsistency_spec [c9MarketZero, c9MarketHigh]
        [⟨"z", 1⟩, ⟨"h", 2⟩] (1/50)).2.2.2.2 (by norm_num)).2
      ⟨⟨"h", 2⟩, ⟨"z", 1⟩, 1/10⟩ [] hviol
  simp only [List.map_cons, List.map_nil, List.mem_singleton] at hd
  rw [hd] at heq
  rw [heq]
  norm_num [jsRound, min_def]

/-- C8 amended: `detectClusterType` returns `custom` for an empty or
singleton list; `threshold` when every question contains a number token
(a digit) and the *space-separated* (JS `split(' ')`, the single space
character only) three-token prefixes of every question are identical
under case-sensitive literal comparison; otherwise `mutual_exclusive`
when all categories agree and there are at most 5 markets; otherwise
`correlated`. -/
theorem detectClusterType_spec (m0 : Market) (rest : List Market) :
    detectClusterType [] = ClusterType.custom
    ∧ detectClusterType [m0] = ClusterType.custom
    ∧ (1 ≤ rest.length →
        (((∀ m ∈ m0 :: rest, hasNumberToken m.question = true)
            ∧ ∀ m ∈ m0 :: rest,
                firstThreeWords m.question = firstThreeWords m0.question) →
          detectClusterType (m0 :: rest) = ClusterType.threshold)
        ∧ (¬ ((∀ m ∈ m0 :: rest, hasNumberToken m.question = true)
            ∧ ∀ m ∈ m0 :: rest,
                firstThreeWords m.question = firstThreeWords m0.question) →
          ((∀ m ∈ m0 :: rest, m.category = m0.category)
              ∧ (m0 :: rest).length ≤ 5 →
            detectClusterType (m0 :: rest) = ClusterType.mutual_exclusive)
          ∧ (¬ ((∀ m ∈ m0 :: rest, m.category = m0.category)
              ∧ (m0 :: rest).length ≤ 5) →
            detectClusterType (m0 :: rest) = ClusterType.correlated))) := by
  have hlen : ∀ h : 1 ≤ rest.length, ¬ ((m0 :: rest).length < 2) := by
    intro h
    simp only [List.length_cons]
    omega
  have hand : (((m0 :: rest).all fun m => hasNumberToken m.question) &&
      (((m0 :: rest).map fun m => firstThreeWords m.question).all
        fun w => w == (((m0 :: rest).map fun m =>
          firstThreeWords m.question).headD ""))) = true ↔
      ((∀ m ∈ m0 :: rest, hasNumberToken m.question = true)
        ∧ ∀ m ∈ m0 :: rest,
            firstThreeWords m.question = firstThreeWords m0.question) := by
    rw [Bool.and_eq_true, List.all_eq_true, List.all_eq_true]
    constructor
    · rintro ⟨h1, h2⟩
      refine ⟨h1, ?_⟩
      intro m hm
      have := h2 (firstThreeWords m.question) (List.mem_map_of_mem _ hm)
      simpa using this
    · rintro ⟨h1, h2⟩
      refine ⟨h1, ?_⟩
      intro w hw
      obtain ⟨m, hm, rfl⟩ := List.mem_map.mp hw
      simpa using h2 m hm
  have hcat : ((((m0 :: rest).map Market.category).all
      fun c => c == (((m0 :: rest).map Market.category).headD "")) &&
        decide ((m0 :: rest).length ≤ 5)) = true ↔
      ((∀ m ∈ m0 :: rest, m.category = m0.category)
        ∧ (m0 :: rest).length ≤ 5) := by
    rw [Bool.and_eq_true, List.all_eq_true, decide_eq_true_eq]
    constructor
    · rintro ⟨h1, h2⟩
      refine ⟨?_, h2⟩
      intro m hm
      have := h1 (m.category) (List.mem_map_of_mem _ hm)
      simpa using this
    · rintro ⟨h1, h2⟩
      refine ⟨?_, h2⟩
      intro c hc
      obtain ⟨m, hm, rfl⟩ := List.mem_map.mp hc
      simpa using h1 m hm
  refine ⟨rfl, rfl, fun h1 => ⟨?_, fun hno => ⟨?_, ?_⟩⟩⟩
  · intro hyes
    simp only [detectClusterType]
    rw [if_neg (hlen h1), if_pos (hand.mpr hyes)]
  · intro hcats
    simp only [detectClusterType]
    rw [if_neg (hlen h1), if_neg (fun hc => hno (hand.mp hc)),
      if_pos (hcat.mpr hcats)]
  · intro hncats
    simp only [detectClusterType]
    rw [if_neg (hlen h1), if_neg (fun hc => hno (hand.mp hc)),
      if_neg (fun hc => hncats (hcat.mp hc))]


/-- Witness for the amended C8: two markets with the identical prefix
"BTC price above" and number tokens classify as `threshold`. -/
theorem detectClusterType_spec_witness :
    detectClusterType [c8MarketT1, c8MarketT2] = ClusterType.threshold :=
  ((detectClusterType_spec c8MarketT1 [c8MarketT2]).2.2 (by decide)).1
    (by decide)


/-- The break-even scan returns the default `1/2` on any curve whose
adjacent points always share a strict payoff sign. -/
theorem breakEvenFromCurve_of_same_sign (l : List PayoffPoint)
    (h : List.Chain' (fun a b =>
      (0 < a.payoff ∧ 0 < b.payoff) ∨ (a.payoff < 0 ∧ b.payoff < 0)) l) :
    breakEvenFromCurve l = 1/2 := by
  induction l with
  | nil => rfl
  | cons p l ih =>
    cases l with
    | nil => rfl
    | cons q rest =>
      obtain ⟨hR, htail⟩ := List.chain'_cons.mp h
      rw [breakEvenFromCurve]
      rw [if_neg ?_]
      · exact ih htail
      · rcases hR with ⟨hp, hq⟩ | ⟨hp, hq⟩
        · rintro (⟨h1, -⟩ | ⟨-, h2⟩)
          · exact absurd hp (not_lt.mpr h1)
          · exact absurd hq (not_lt.mpr h2)
        · rintro (⟨-, h2⟩ | ⟨h1, -⟩)
          · exact absurd hq (not_lt.mpr h2)
          · exact absurd hp (not_lt.mpr h1)

/-- A payoff curve with everywhere strictly positive payoffs has
same-sign adjacent pairs. -/
theorem chain'_of_all_pos (l : List PayoffPoint)
    (h : ∀ a ∈ l, 0 < a.payoff) :
    List.Chain' (fun a b : PayoffPoint =>
      (0 < a.payoff ∧ 0 < b.payoff) ∨ (a.payoff < 0 ∧ b.payoff < 0)) l := by
  induction l with
  | nil => exact List.chain'_nil
  | cons p l ih =>
    cases l with
    | nil => exact List.chain'_singleton p
    | cons q rest =>
      refine List.chain'_cons.mpr ⟨Or.inl ⟨h p (by simp), h q (by simp)⟩, ?_⟩
      exact ih fun a ha => h a (List.mem_cons_of_mem _ ha)

/-- C10: for a non-empty strategy whose payoff curve has no adjacent
pair with opposite or zero payoff signs (every adjacent pair strictly
positive or strictly negative on both sides), `analyzeStrategy` returns
`breakEvenProbability = 0.5` — the same sentinel as for an empty
strategy. -/
theorem breakEvenProbability_default_without_sign_change (s : Strategy)
    (hne : s.positions ≠ [])
    (hchain : List.Chain' (fun a b : PayoffPoint =>
        (0 < a.payoff ∧ 0 < b.payoff) ∨ (a.payoff < 0 ∧ b.payoff < 0))
      (generatePayoffCurve s.positions 50)) :
    (analyzeStrategy s).breakEvenProbability = 1/2
    ∧ ∀ r : ℚ, (analyzeStrategy { positions := [], discountRate := r
        }).breakEvenProbability = 1/2 := by
  constructor
  · cases hpos : s.positions with
    | nil => exact absurd hpos hne
    | cons p ps =>
      rw [analyzeStrategy]
      rw [hpos]
      simp only
      rw [← hpos]
      exact breakEvenFromCurve_of_same_sign _ hchain
  · intro r
    rfl


/-- Witness for C10: a two-position pure-arbitrage strategy whose curve
is the constant `25`. -/
theorem breakEvenProbability_default_without_sign_change_witness : (analyzeStrategy c10Strategy).breakEvenProbability = 1/2 := by
  have hagg : ∀ f : ℚ, aggregatePayoff c10Strategy.positions f = 25 := by
    intro f
    show aggregatePayoff [c10PositionYes, c10PositionNo] f = 25
    norm_num [aggregatePayoff, calculatePositionPayoff, c10PositionYes,
      c10PositionNo, mkMarket]
    ring
  refine (breakEvenProbability_default_without_sign_change c10Strategy (by simp [c10Strategy]) ?_).1
  refine chain'_of_all_pos _ ?_
  intro a ha
  simp only [generatePayoffCurve, List.mem_map, List.mem_range] at ha
  obtain ⟨i, -, rfl⟩ := ha
  simp only
  rw [hagg]
  norm_num



theorem sum_map_range (f : ℕ → ℚ) (n : ℕ) :
    ((List.range n).map f).sum = ∑ i in Finset.range n, f i := by
  induction n with
  | zero => rfl
  | succ n ih =>
    rw [List.range_succ, List.map_append, List.sum_append,
      Finset.sum_range_succ, ih]
    simp

theorem sum_map_flatMap (l : List ℕ) (f : ℕ → List ℚ) :
    (l.flatMap f).sum = (l.map fun a => (f a).sum).sum := by
  induction l with
  | nil => rfl
  | cons x xs ih => rw [List.flatMap_cons, List.sum_append, ih, List.map_cons,
      List.sum_cons]

theorem generatePayoffSurface_points (positions : List Position) (r : ℚ)
    (S T : ℕ) (D : ℚ) :
    (generatePayoffSurface positions r S T D).points
      = surfacePoints positions r S T D := rfl

theorem surfacePoint_payoff (positions : List Position) (r : ℚ)
    (S T : ℕ) (D : ℚ) (p t : ℕ) :
    (surfacePoint positions r S T D p t).payoff
      = aggregatePayoff positions ((p : ℚ) / (S : ℚ))
          * (1 + r * (((t : ℚ) / (T : ℚ)) * D / 365))⁻¹ := by
  simp [surfacePoint, applyTimeDiscount, div_eq_mul_inv]

theorem surfacePoint_days (positions : List Position) (r : ℚ)
    (S T : ℕ) (D : ℚ) (p t : ℕ) :
    (surfacePoint positions r S T D p t).daysToResolution
      = ((t : ℚ) / (T : ℚ)) * D := rfl

theorem surfacePoints_payoff_sum (positions : List Position) (r : ℚ)
    (S T : ℕ) (D : ℚ) :
    ((surfacePoints positions r S T D).map PayoffSurfacePoint.payoff).sum
      = (∑ p in Finset.range (S + 1),
          aggregatePayoff positions ((p : ℚ) / (S : ℚ)))
        * (∑ t in Finset.range (T + 1),
            (1 + r * (((t : ℚ) / (T : ℚ)) * D / 365))⁻¹) := by
  rw [surfacePoints, List.map_flatMap, sum_map_flatMap, sum_map_range,
    Finset.sum_mul_sum]
  refine Finset.sum_congr rfl fun p _ => ?_
  rw [List.map_map, sum_map_range]
  refine Finset.sum_congr rfl fun t _ => ?_
  exact surfacePoint_payoff positions r S T D p t

theorem surfacePoints_length (positions : List Position) (r : ℚ)
    (S T : ℕ) (D : ℚ) :
    (surfacePoints positions r S T D).length = (S + 1) * (T + 1) := by
  rw [surfacePoints, List.length_flatMap]
  have hc : (List.length ∘ fun pStep => (List.range (T + 1)).map
      fun tStep => surfacePoint positions r S T D pStep tStep)
      = fun _ => T + 1 := by
    funext p
    simp
  rw [hc, List.map_const', List.sum_replicate, List.length_range,
    smul_eq_mul, mul_comm]

theorem timeWeightedEV_eq (positions : List Position) (r : ℚ)
    (S T : ℕ) (D : ℚ) :
    (generatePayoffSurface positions r S T D).timeWeightedEV
      = ((∑ p in Finset.range (S + 1),
            aggregatePayoff positions ((p : ℚ) / (S : ℚ)))
          * (∑ t in Finset.range (T + 1),
              (1 + r * (((t : ℚ) / (T : ℚ)) * D / 365))⁻¹))
        / (((S : ℚ) + 1) * ((T : ℚ) + 1)) := by
  have h1 : (generatePayoffSurface positions r S T D).timeWeightedEV
      = ((surfacePoints positions r S T D).map
          PayoffSurfacePoint.payoff).sum
        / ((surfacePoints positions r S T D).length : ℚ) := rfl
  rw [h1, surfacePoints_payoff_sum, surfacePoints_length]
  push_cast
  ring_nf

theorem filter_flatMap_points (l : List ℕ)
    (f : ℕ → List PayoffSurfacePoint) (q : PayoffSurfacePoint → Bool) :
    (l.flatMap f).filter q = l.flatMap fun a => (f a).filter q := by
  induction l with
  | nil => rfl
  | cons x xs ih =>
    rw [List.flatMap_cons, List.filter_append, ih, List.flatMap_cons]

theorem flatMap_pure (l : List ℕ) (g : ℕ → PayoffSurfacePoint) :
    (l.flatMap fun a => [g a]) = l.map g := by
  induction l with
  | nil => rfl
  | cons x xs ih => rw [List.flatMap_cons, List.map_cons, ih]; rfl

theorem evPoints_eq (positions : List Position) (r : ℚ)
    (S T : ℕ) (D : ℚ) (hT : 1 ≤ T) (hD : D ≠ 0) :
    (surfacePoints positions r S T D).filter
        (fun pt => decide (pt.daysToResolution = 0))
      = (List.range (S + 1)).map
          fun p => surfacePoint positions r S T D p 0 := by
  have hTQ : (T : ℚ) ≠ 0 := Nat.cast_ne_zero.mpr (by omega)
  have hinner : ∀ p : ℕ,
      ((List.range (T + 1)).map
        fun t => surfacePoint positions r S T D p t).filter
          (fun pt => decide (pt.daysToResolution = 0))
      = [surfacePoint positions r S T D p 0] := by
    intro p
    rw [List.range_succ_eq_map, List.map_cons, List.filter_cons]
    have h0 : (surfacePoint positions r S T D p 0).daysToResolution = 0 := by
      rw [surfacePoint_days]
      norm_num
    rw [if_pos (by simp [h0])]
    have htail : ((List.map Nat.succ (List.range T)).map
        fun t => surfacePoint positions r S T D p t).filter
          (fun pt => decide (pt.daysToResolution = 0)) = [] := by
      rw [List.filter_eq_nil_iff]
      intro pt hpt
      rw [List.map_map] at hpt
      obtain ⟨t, -, rfl⟩ := List.mem_map.mp hpt
      simp only [Function.comp_apply, surfacePoint_days,
        decide_eq_true_eq]
      intro hzero
      have ht1 : ((Nat.succ t : ℕ) : ℚ) ≠ 0 := by
        exact_mod_cast Nat.succ_ne_zero t
      exact (mul_ne_zero (div_ne_zero ht1 hTQ) hD) hzero
    rw [htail]
  rw [surfacePoints, filter_flatMap_points]
  simp only [hinner]
  exact flatMap_pure _ _

theorem expectedValue_eq (positions : List Position) (r : ℚ)
    (S T : ℕ) (D : ℚ) (hT : 1 ≤ T) (hD : D ≠ 0) :
    (generatePayoffSurface positions r S T D).expectedValue
      = probGridAvg positions S := by
  have h1 : (generatePayoffSurface positions r S T D).expectedValue
      = (((surfacePoints positions r S T D).filter
          (fun pt => decide (pt.daysToResolution = 0))).map
            PayoffSurfacePoint.payoff).sum
        / (((surfacePoints positions r S T D).filter
            (fun pt => decide (pt.daysToResolution = 0))).length : ℚ) := rfl
  rw [h1, evPoints_eq positions r S T D hT hD, List.map_map,
    List.length_map, List.length_range]
  rw [sum_map_range (PayoffSurfacePoint.payoff ∘
    fun p => surfacePoint positions r S T D p 0)]
  rw [probGridAvg, sum_map_range]
  push_cast
  congr 1
  refine Finset.sum_congr rfl fun p _ => ?_
  simp only [Function.comp_apply]
  rw [surfacePoint_payoff]
  norm_num

theorem discount_sum_strict_anti (T : ℕ) (D r1 r2 : ℚ)
    (hT : 1 ≤ T) (hD : 0 < D) (hr1 : 0 ≤ r1) (hr : r1 < r2) :
    ∑ t in Finset.range (T + 1),
        (1 + r2 * (((t : ℚ) / (T : ℚ)) * D / 365))⁻¹
      < ∑ t in Finset.range (T + 1),
          (1 + r1 * (((t : ℚ) / (T : ℚ)) * D / 365))⁻¹ := by
  have hTQ : (0 : ℚ) < (T : ℚ) := by exact_mod_cast (by omega : 0 < T)
  apply Finset.sum_lt_sum
  · intro t _
    have hτ : 0 ≤ ((t : ℚ) / (T : ℚ)) * D / 365 := by positivity
    have h1 : 0 < 1 + r1 * (((t : ℚ) / (T : ℚ)) * D / 365) := by positivity
    have h2 : 1 + r1 * (((t : ℚ) / (T : ℚ)) * D / 365)
        ≤ 1 + r2 * (((t : ℚ) / (T : ℚ)) * D / 365) := by
      have := mul_le_mul_of_nonneg_right (le_of_lt hr) hτ
      linarith
    exact inv_anti₀ h1 h2
  · refine ⟨1, Finset.mem_range.mpr (by omega), ?_⟩
    have hτ : 0 < (((1 : ℕ) : ℚ) / (T : ℚ)) * D / 365 := by
      rw [Nat.cast_one]
      positivity
    have h1 : 0 < 1 + r1 * ((((1 : ℕ) : ℚ) / (T : ℚ)) * D / 365) := by
      nlinarith
    have h2 : 1 + r1 * ((((1 : ℕ) : ℚ) / (T : ℚ)) * D / 365)
        < 1 + r2 * ((((1 : ℕ) : ℚ) / (T : ℚ)) * D / 365) := by
      nlinarith
    exact inv_strictAnti₀ h1 h2

/-- C6: for a profitable set of positions (average undiscounted payoff
over the probability grid strictly positive) the payoff surface is
strictly antitone in the discount rate with respect to
`timeWeightedEV`; moreover `expectedValue` averages only the zero-day
cells (equalling the undiscounted probability-grid average) while
`timeWeightedEV` averages every cell of the grid. -/
theorem generatePayoffSurface_rate_antitone (positions : List Position) (r1 r2 D : ℚ) (S T : ℕ)
    (hS : 1 ≤ S) (hT : 1 ≤ T) (hD : 0 < D) (hr1 : 0 ≤ r1) (hr : r1 < r2)
    (hprof : 0 < probGridAvg positions S) :
    (generatePayoffSurface positions r2 S T D).timeWeightedEV
      < (generatePayoffSurface positions r1 S T D).timeWeightedEV
    ∧ (generatePayoffSurface positions r1 S T D).expectedValue
        = probGridAvg positions S
    ∧ (generatePayoffSurface positions r1 S T D).timeWeightedEV
        = (((generatePayoffSurface positions r1 S T D).points.map
            PayoffSurfacePoint.payoff).sum)
          / (((S : ℚ) + 1) * ((T : ℚ) + 1)) := by
  have hsumpos : 0 < ∑ p in Finset.range (S + 1),
      aggregatePayoff positions ((p : ℚ) / (S : ℚ)) := by
    have hSQ : (0 : ℚ) < (S : ℚ) + 1 := by positivity
    have heq : (∑ p in Finset.range (S + 1),
        aggregatePayoff positions ((p : ℚ) / (S : ℚ)))
        = probGridAvg positions S * ((S : ℚ) + 1) := by
      rw [probGridAvg, sum_map_range]
      field_simp
    rw [heq]
    exact mul_pos hprof hSQ
  refine ⟨?_, expectedValue_eq positions r1 S T D hT (ne_of_gt hD), ?_⟩
  · rw [timeWeightedEV_eq, timeWeightedEV_eq]
    have hN : (0 : ℚ) < ((S : ℚ) + 1) * ((T : ℚ) + 1) := by positivity
    have hG := discount_sum_strict_anti T D r1 r2 hT hD hr1 hr
    have hmul := mul_lt_mul_of_pos_left hG hsumpos
    exact (div_lt_div_iff_of_pos_right hN).mpr hmul
  · rw [timeWeightedEV_eq, generatePayoffSurface_points,
      surfacePoints_payoff_sum]

/-- Witness for C6: a YES position at entry `0.40` with stake `50` on
a `5 x 3` grid over `180` days, comparing rates `0.10 < 0.20`. -/
theorem generatePayoffSurface_rate_antitone_witness :
    (generatePayoffSurface [c6Position] (1/5) 4 2 180).timeWeightedEV
      < (generatePayoffSurface [c6Position] (1/10) 4 2 180).timeWeightedEV := by
  refine (generatePayoffSurface_rate_antitone [c6Position] (1/10) (1/5) 180 4 2 (by norm_num)
    (by norm_num) (by norm_num) (by norm_num) (by norm_num) ?_).1
  have hagg : ∀ f : ℚ, aggregatePayoff [c6Position] f = 125 * f - 50 := by
    intro f
    norm_num [aggregatePayoff, calculatePositionPayoff, c6Position, mkMarket]
    ring
  rw [probGridAvg]
  norm_num [List.range_succ, hagg]

end Poly
